import Mathlib

/-!
# Verification of the wrinkles continuous-time curve engine (C sources)

A shallow embedding of the C implementation under `src/` into Lean 4.

Conventions of the embedding:

* The C `Ordinate` type wraps an IEEE `double`; all the properties checked
  here are control-flow / exact-arithmetic properties, so ordinates (and
  the `float` values of the hodograph module) are embedded as `ℚ`.
  Rounding behaviour of IEEE arithmetic is outside this development.
* Transcendental library calls (`sqrtf`, `atan2f`/`cosf`/`sinf`) have no
  exact counterpart on `ℚ`; functions that invoke them take the value of
  the call as an explicit parameter (rotation coefficients `(cosa, sina)`;
  a `sqrtf` oracle).  Where the call site guards its argument to be
  nonnegative (`bezier_roots`), the oracle is total (`ℚ → ℚ`); where it
  does not (`inflection_points`), the oracle is `ℚ → Option ℚ` with `none`
  modelling the NaN that `sqrtf` returns on a negative argument, and NaN
  propagation (arithmetic produces NaN, every IEEE comparison with NaN is
  false) is modelled explicitly.  Theorems quantify over those parameters
  when the property does not depend on them; concrete instantiations use
  inputs on which the C library functions are exact (e.g. `atan2f(0,x) = 0`,
  `cosf(0) = 1`, `sinf(-0) = ∓0`, `sqrtf(1) = 1`, `sqrtf(-8) = NaN`).
* Bounded C `for` loops become structural recursion on the loop counter;
  unbounded `while` loops (the continued-fraction comparison) take explicit
  fuel.
* Fixed-width machine integers of the treecode and rational modules are
  embedded as `ℕ` / `ℤ` with explicit wrapping where the C code could wrap.
-/

/-! ## opentime: ordinates, lerp, control points -/

/-- `opentime_lerp` from `src-c/opentime/lerp.h`:
`(a * (1 - u)) + (b * u)` (the C computes `1 - u` as `-(u) - (-1.0)`). -/
def opentime_lerp (u a b : ℚ) : ℚ :=
  a * (-u - (-1)) + b * u

/-- `opentime_invlerp` from `src-c/opentime/lerp.h`: guarded inverse lerp,
`(v - a) / (b - a)`, returning `a` when `b == a`. -/
def opentime_invlerp (v a b : ℚ) : ℚ :=
  if b = a then a else (v - a) / (b - a)

/-- `ControlPoint` from `src-c/curve/control_point.h`: a pair of ordinates.
The C field `in` is a Lean keyword, embedded as `inp`. -/
structure ControlPoint where
  inp : ℚ
  out : ℚ
deriving DecidableEq, Repr

/-- `control_point_zero` from `src-c/curve/control_point.h`. -/
def control_point_zero : ControlPoint := ⟨0, 0⟩

/-- `control_point_lerp` from `src-c/curve/bezier_math.h`: componentwise lerp. -/
def control_point_lerp (u : ℚ) (a b : ControlPoint) : ControlPoint :=
  ⟨opentime_lerp u a.inp b.inp, opentime_lerp u a.out b.out⟩

/-! ## opentime: continuous intervals (`src-c/opentime/interval.h`) -/

/-- `ContinuousInterval`: right-open interval `[start, end)`.
The C field `end` is a Lean keyword, embedded as `end_`. -/
structure ContinuousInterval where
  start : ℚ
  end_ : ℚ
deriving DecidableEq, Repr

/-- `continuous_interval_overlaps` from `src-c/opentime/interval.h`:
instant intervals (`start == end`) overlap exactly their own point,
otherwise membership in `[start, end)`. -/
def continuous_interval_overlaps (self : ContinuousInterval) (ord : ℚ) : Bool :=
  if self.start = self.end_ ∧ self.start = ord then
    true
  else
    decide (ord ≥ self.start) && decide (ord < self.end_)

/-! ## Bezier math (`src-c/curve/bezier_math.h`) -/

/-- `BezierSegment`: four control points, always treated as cubic. -/
structure BezierSegment where
  p0 : ControlPoint
  p1 : ControlPoint
  p2 : ControlPoint
  p3 : ControlPoint
deriving DecidableEq, Repr

/-- `bezier_segment_reduce4`: one de Casteljau step, 4 points → 3 points. -/
def bezier_segment_reduce4 (u : ℚ) (s : BezierSegment) : BezierSegment :=
  ⟨control_point_lerp u s.p0 s.p1,
   control_point_lerp u s.p1 s.p2,
   control_point_lerp u s.p2 s.p3,
   control_point_zero⟩

/-- `bezier_segment_reduce3`: de Casteljau step, 3 points → 2 points. -/
def bezier_segment_reduce3 (u : ℚ) (s : BezierSegment) : BezierSegment :=
  ⟨control_point_lerp u s.p0 s.p1,
   control_point_lerp u s.p1 s.p2,
   control_point_zero, control_point_zero⟩

/-- `bezier_segment_reduce2`: de Casteljau step, 2 points → 1 point. -/
def bezier_segment_reduce2 (u : ℚ) (s : BezierSegment) : BezierSegment :=
  ⟨control_point_lerp u s.p0 s.p1,
   control_point_zero, control_point_zero, control_point_zero⟩

/-- `bezier_segment_eval_at` from `src-c/curve/bezier_curve.h`:
three-step de Casteljau reduction, returning the resulting point. -/
def bezier_segment_eval_at (seg : BezierSegment) (u : ℚ) : ControlPoint :=
  (bezier_segment_reduce2 u (bezier_segment_reduce3 u (bezier_segment_reduce4 u seg))).p0

/-- `bezier_evaluate_bezier0` from `src-c/curve/bezier_math.h`: the
specialized cubic evaluation with first control value 0,
`u³·p4 − 3·u²·(u−1)·p3 + 3·u·(u−1)²·p2`, in the exact association the C uses. -/
def bezier_evaluate_bezier0 (unorm p2 p3 p4 : ℚ) : ℚ :=
  let u := unorm
  let u2 := u * u
  let u3 := u2 * u
  let u_minus_one := u - 1
  let umo2 := u_minus_one * u_minus_one
  let term1 := u3 * p4
  let term2 := p3 * u2 * u_minus_one * 3
  let term3 := p2 * 3 * u * umo2
  term1 - term2 + term3

/-- `MAX_ABS_ERROR` in `bezier_find_u`: `2.0 * DBL_EPSILON`.  The C source
literal `2.2204460492503131e-16` is exactly `2⁻⁵²` when parsed as a double. -/
def bezier_find_u_max_abs_error : ℚ := 2 * (1 / 2 ^ 52)

/-- Final bound selection of `bezier_find_u`: return the bracket endpoint
with the smaller absolute residual. -/
def bezier_find_u_select (u1 x1 u2 x2 : ℚ) : ℚ :=
  if |x1| < |x2| then u1 else u2

/-- The Illinois iteration of `bezier_find_u`
(`for (int i = MAX_ITERATIONS - 1; i > 0; i--)`, so at most 44 body runs).
State is the bracket `(u1, x1, u2, x2)` of parameters and residuals.
Returns the result together with the number of `bezier0` evaluations
performed, for the resource-bound claim. -/
def bezier_find_u_loop (x p1 p2 p3 : ℚ) : ℕ → ℚ → ℚ → ℚ → ℚ → ℚ × ℕ
  | 0, u1, x1, u2, x2 => (bezier_find_u_select u1 x1 u2 x2, 0)
  | fuel + 1, u1, x1, u2, x2 =>
    let u3 := u2 - x2 * ((u2 - u1) / (x2 - x1))
    let x3 := bezier_evaluate_bezier0 u3 p1 p2 p3 - x
    if x3 = 0 then (u3, 1)
    else
      let s : ℚ × ℚ := if x2 * x3 ≤ 0 then (u2, x2) else (u1, x1 * x2 / (x2 + x3))
      let u1' := s.1
      let x1' := s.2
      let u2' := u3
      let x2' := x3
      let diff := if u2' > u1' then u2' - u1' else u1' - u2'
      if diff ≤ bezier_find_u_max_abs_error then
        (bezier_find_u_select u1' x1' u2' x2', 1)
      else
        let r := bezier_find_u_loop x p1 p2 p3 fuel u1' x1' u2' x2'
        (r.1, r.2 + 1)

/-- `bezier_find_u` from `src-c/curve/bezier_math.h`, instrumented with the
number of `bezier_evaluate_bezier0` calls.  Boundary clamps, one regula
falsi step with its early exits, then the Illinois loop (44 more rounds max). -/
def bezier_find_u_instr (x p1 p2 p3 : ℚ) : ℚ × ℕ :=
  if x ≤ 0 then (0, 0)
  else if x ≥ p3 then (1, 0)
  else
    let x1 := -x
    let x2 := p3 - x
    let u3 := 1 - x2 / (x2 - x1)
    let x3 := bezier_evaluate_bezier0 u3 p1 p2 p3 - x
    if x3 = 0 then (u3, 1)
    else if x3 < 0 then
      if 1 - u3 ≤ bezier_find_u_max_abs_error then
        (if x2 < -x3 then (1, 1) else (u3, 1))
      else
        let r := bezier_find_u_loop x p1 p2 p3 44 1 x2 u3 x3
        (r.1, r.2 + 1)
    else
      let x1' := x1 * x2 / (x2 + x3)
      if u3 ≤ bezier_find_u_max_abs_error then
        (if -x1' < x3 then (0, 1) else (u3, 1))
      else
        let r := bezier_find_u_loop x p1 p2 p3 44 0 x1' u3 x3
        (r.1, r.2 + 1)

/-- `bezier_find_u`: the returned parameter. -/
def bezier_find_u (x p1 p2 p3 : ℚ) : ℚ :=
  (bezier_find_u_instr x p1 p2 p3).1

/-- `ORDINATE_EPSILON = OPENTIME_EPSILON_F = 1.0e-4`
(`src-c/opentime/util.h`). -/
def ORDINATE_EPSILON : ℚ := 1 / 10000

/-- Cubic coefficient `d = -p0 + 3*p1 - 3*p2 + p3` as computed by
`bezier_actual_order`. -/
def bezier_coeff_d (p0 p1 p2 p3 : ℚ) : ℚ := -p0 + p1 * 3 + (p2 * (-3) + p3)

/-- Quadratic coefficient `a = 3*p0 - 6*p1 + 3*p2` as computed by
`bezier_actual_order`. -/
def bezier_coeff_a (p0 p1 p2 : ℚ) : ℚ := p0 * 3 + p1 * (-6) + p2 * 3

/-- Linear coefficient `b = -3*p0 + 3*p1` as computed by
`bezier_actual_order`. -/
def bezier_coeff_b (p0 p1 : ℚ) : ℚ := p0 * (-3) + p1 * 3

/-- `bezier_actual_order` from `src-c/curve/bezier_math.h`: classify the
curve order by testing coefficient magnitudes against `ORDINATE_EPSILON`. -/
def bezier_actual_order (p0 p1 p2 p3 : ℚ) : ℤ :=
  let d := bezier_coeff_d p0 p1 p2 p3
  let a := bezier_coeff_a p0 p1 p2
  let b := bezier_coeff_b p0 p1
  if |d| < ORDINATE_EPSILON then
    if |a| < ORDINATE_EPSILON then
      if |b| < ORDINATE_EPSILON then -1
      else 1
    else 2
  else 3

/-- Modelled from the spec: `actual_order` "returns 1, 2, or 3 by testing the
magnitudes of the cubic / quadratic / linear coefficients against a fixed
epsilon; returns −1 for degenerate".  The threshold is a parameter so the
claimed constant (1e-6) and the constant in the code can be compared. -/
def bezier_actual_order_spec (eps p0 p1 p2 p3 : ℚ) : ℤ :=
  if |bezier_coeff_d p0 p1 p2 p3| < eps then
    if |bezier_coeff_a p0 p1 p2| < eps then
      if |bezier_coeff_b p0 p1| < eps then -1
      else 1
    else 2
  else 3

/-! ## Bezier segment constructors and splitting (`src-c/curve/bezier_curve.h`) -/

/-- `CURVE_EPSILON = 0.00001` (`src-c/curve/epsilon.h`). -/
def CURVE_EPSILON : ℚ := 1 / 100000

/-- `bezier_segment_init_identity`: linear identity segment over
`[input_start, input_end]`, with `p1`, `p2` at the 1/3 and 2/3 interpolants. -/
def bezier_segment_init_identity (input_start input_end : ℚ) : BezierSegment :=
  let start : ControlPoint := ⟨input_start, input_start⟩
  let stop : ControlPoint := ⟨input_end, input_end⟩
  ⟨start,
   control_point_lerp (1 / 3) start stop,
   control_point_lerp (2 / 3) start stop,
   stop⟩

/-- `bezier_segment_init_from_start_end`: linear segment between two control
points; falls back to the degenerate identity over `[start.in, start.in]`
when `end.in < start.in`. -/
def bezier_segment_init_from_start_end (start stop : ControlPoint) : BezierSegment :=
  if stop.inp < start.inp then
    bezier_segment_init_identity start.inp start.inp
  else
    ⟨start,
     control_point_lerp (1 / 3) start stop,
     control_point_lerp (2 / 3) start stop,
     stop⟩

/-- `bezier_segment_split_at`: de Casteljau subdivision at `u`; rejects
`u < CURVE_EPSILON || u >= 1.0` (C returns `false` through an out-parameter
pair; embedded as `Option`). -/
def bezier_segment_split_at (seg : BezierSegment) (u : ℚ) :
    Option (BezierSegment × BezierSegment) :=
  if u < CURVE_EPSILON ∨ u ≥ 1 then none
  else
    let Q1 := control_point_lerp u seg.p0 seg.p1
    let Q2 := control_point_lerp u seg.p1 seg.p2
    let Q3 := control_point_lerp u seg.p2 seg.p3
    let R1 := control_point_lerp u Q1 Q2
    let R2 := control_point_lerp u Q2 Q3
    let P := control_point_lerp u R1 R2
    some (⟨seg.p0, Q1, R1, P⟩, ⟨P, R2, Q3, seg.p3⟩)

/-! ## Linear curves (`src-c/curve/linear_curve.h`)

A `LinearCurve_Monotonic` owns an array of knots; the embedding is the knot
list itself. -/

/-- `output_at_input_between` from `src-c/curve/bezier_math.h`: linear
interpolation of `out` at the normalized position of `t` in `[fst.in, snd.in]`. -/
def output_at_input_between (t : ℚ) (fst snd : ControlPoint) : ℚ :=
  opentime_lerp (opentime_invlerp t fst.inp snd.inp) fst.out snd.out

/-- `input_at_output_between` from `src-c/curve/bezier_math.h`: inverse of
`output_at_input_between`. -/
def input_at_output_between (v : ℚ) (fst snd : ControlPoint) : ℚ :=
  opentime_lerp (opentime_invlerp v fst.out snd.out) fst.inp snd.inp

/-- The segment-containment test of the linear-curve lookups: input lies in
`[p0.in, p1.in)` (ascending) or in `(p1.in, p0.in]` (descending). -/
def linear_curve_in_segment (p0 p1 : ControlPoint) (input : ℚ) : Bool :=
  (decide (p0.inp ≤ input) && decide (input < p1.inp)) ||
  (decide (p0.inp ≥ input) && decide (input > p1.inp))

/-- The scan loop of `linear_curve_monotonic_output_at_input`: walk adjacent
knot pairs; return the interpolant of the first containing pair, or of the
final pair (`i == knot_count - 2`) when no pair contains the input. -/
def linear_curve_scan_output (input : ℚ) : ControlPoint → ControlPoint →
    List ControlPoint → ℚ
  | p0, p1, [] => output_at_input_between input p0 p1
  | p0, p1, p2 :: rest =>
    if linear_curve_in_segment p0 p1 input then output_at_input_between input p0 p1
    else linear_curve_scan_output input p1 p2 rest

/-- `linear_curve_monotonic_output_at_input`: identity on an empty curve, the
single knot's output on a one-knot curve, otherwise the scan loop. -/
def linear_curve_monotonic_output_at_input (knots : List ControlPoint) (input : ℚ) : ℚ :=
  match knots with
  | [] => input
  | [k] => k.out
  | p0 :: p1 :: rest => linear_curve_scan_output input p0 p1 rest

/-- Output-space segment-containment test of `input_at_output`. -/
def linear_curve_in_segment_output (p0 p1 : ControlPoint) (output : ℚ) : Bool :=
  (decide (p0.out ≤ output) && decide (output < p1.out)) ||
  (decide (p0.out ≥ output) && decide (output > p1.out))

/-- The scan loop of `linear_curve_monotonic_input_at_output`. -/
def linear_curve_scan_input (output : ℚ) : ControlPoint → ControlPoint →
    List ControlPoint → ℚ
  | p0, p1, [] => input_at_output_between output p0 p1
  | p0, p1, p2 :: rest =>
    if linear_curve_in_segment_output p0 p1 output then input_at_output_between output p0 p1
    else linear_curve_scan_input output p1 p2 rest

/-- `linear_curve_monotonic_input_at_output`: inverse lookup. -/
def linear_curve_monotonic_input_at_output (knots : List ControlPoint) (output : ℚ) : ℚ :=
  match knots with
  | [] => output
  | [k] => k.inp
  | p0 :: p1 :: rest => linear_curve_scan_input output p0 p1 rest

/-! ## Hodograph critical points (`spline-gym/src/hodographs.c`)

The hodograph module works on `Vector2` (`float` pairs) and carries an
explicit `order` field.  `sqrtf` is passed in as a parameter (see the file
header); the claims proved below hold for every value of that parameter. -/

/-- `Vector2` from `spline-gym/src/hodographs.h`. -/
structure Vector2 where
  x : ℚ
  y : ℚ
deriving DecidableEq, Repr

/-- `BezierSegment` of the hodograph module (`spline-gym/src/hodographs.h`):
an order tag plus four points.  Named `HodoSegment` to avoid clashing with
the curve-library `BezierSegment` above. -/
structure HodoSegment where
  order : ℤ
  p0 : Vector2
  p1 : Vector2
  p2 : Vector2
  p3 : Vector2
deriving DecidableEq, Repr

/-- Quadratic coefficient `a = p[0].y - 2*p[1].y + p[2].y` of `bezier_roots`. -/
def bezier_roots_a (bz : HodoSegment) : ℚ := bz.p0.y - 2 * bz.p1.y + bz.p2.y

/-- Linear coefficient `b = 2*(p[1].y - p[0].y)` of `bezier_roots`. -/
def bezier_roots_b (bz : HodoSegment) : ℚ := 2 * (bz.p1.y - bz.p0.y)

/-- Constant coefficient `c = p[0].y` of `bezier_roots`. -/
def bezier_roots_c (bz : HodoSegment) : ℚ := bz.p0.y

/-- The shared root fixup at the end of `bezier_roots` / `inflection_points`:
shift a lone root into `.x`, swap when both are present and unordered. -/
def roots_fixup (rv : Vector2) : Vector2 :=
  if rv.x < 0 then ⟨rv.y, -1⟩
  else if rv.x > rv.y ∧ rv.y > 0 then ⟨rv.y, rv.x⟩
  else rv

/-- The linear fallback branch of `bezier_roots` (taken when `|a| <= 1e-4`):
solve `b*t + c = 0`, keep `t` only when `0 < t < 1`. -/
def bezier_roots_linear_branch (b c : ℚ) : Vector2 :=
  if |b| ≤ 1 / 10000 then ⟨-1, -1⟩
  else
    let t := -c / b
    if t > 0 ∧ t < 1 then ⟨t, -1⟩ else ⟨-1, -1⟩

/-- `bezier_roots` from `spline-gym/src/hodographs.c`.  `sqrtf` is the value
of the C `sqrtf` call.  Order 2: quadratic formula with the `|a| <= 1e-4`
linear fallback and the negative-discriminant early out; roots kept only in
the open interval `(0, 1)`; then the fixup.  Order 1: unfiltered linear
solve.  Other orders: `(-1, -1)`. -/
def bezier_roots (sqrtf : ℚ → ℚ) (bz : HodoSegment) : Vector2 :=
  if bz.order < 1 ∨ bz.order > 2 then ⟨-1, -1⟩
  else if bz.order = 2 then
    let a := bezier_roots_a bz
    let b := bezier_roots_b bz
    let c := bezier_roots_c bz
    if |a| ≤ 1 / 10000 then bezier_roots_linear_branch b c
    else if b * b - 4 * a * c < 0 then ⟨-1, -1⟩
    else
      let sqrtDiscriminant := sqrtf (b * b - 4 * a * c)
      let t1 := (-b + sqrtDiscriminant) / (2 * a)
      let t2 := (-b - sqrtDiscriminant) / (2 * a)
      let rvx := if t1 > 0 ∧ t1 < 1 then t1 else (-1 : ℚ)
      let rvy := if t2 > 0 ∧ t2 < 1 then t2 else (-1 : ℚ)
      roots_fixup ⟨rvx, rvy⟩
  else
    let m := (bz.p1.y - bz.p0.y) / (bz.p1.x - bz.p0.x)
    ⟨-(bz.p0.y - m * bz.p0.x) / m, -1⟩

/-- `align_bezier` from `spline-gym/src/hodographs.c`, for a cubic: translate
`p0` to the origin and rotate by the angle `-atan2(dy, dx)`.  The rotation
coefficients `cosa = cosf(-a)` and `sina = sinf(-a)` are transcendental and
are passed in as the parameters of the embedding. -/
def align_bezier_cubic (cosa sina : ℚ) (bz : HodoSegment) : HodoSegment :=
  let q1 : Vector2 := ⟨bz.p1.x - bz.p0.x, bz.p1.y - bz.p0.y⟩
  let q2 : Vector2 := ⟨bz.p2.x - bz.p0.x, bz.p2.y - bz.p0.y⟩
  let q3 : Vector2 := ⟨bz.p3.x - bz.p0.x, bz.p3.y - bz.p0.y⟩
  ⟨3, ⟨0, 0⟩,
   ⟨q1.x * cosa - q1.y * sina, q1.x * sina + q1.y * cosa⟩,
   ⟨q2.x * cosa - q2.y * sina, q2.x * sina + q2.y * cosa⟩,
   ⟨q3.x * cosa - q3.y * sina, q3.x * sina + q3.y * cosa⟩⟩

/-- Coefficient `a = aligned.p[2].x * aligned.p[1].y` of `inflection_points`. -/
def inflection_a (cosa sina : ℚ) (bz : HodoSegment) : ℚ :=
  (align_bezier_cubic cosa sina bz).p2.x * (align_bezier_cubic cosa sina bz).p1.y

/-- Coefficient `b = aligned.p[3].x * aligned.p[1].y` of `inflection_points`. -/
def inflection_b (cosa sina : ℚ) (bz : HodoSegment) : ℚ :=
  (align_bezier_cubic cosa sina bz).p3.x * (align_bezier_cubic cosa sina bz).p1.y

/-- Coefficient `c = aligned.p[1].x * aligned.p[2].y` of `inflection_points`. -/
def inflection_c (cosa sina : ℚ) (bz : HodoSegment) : ℚ :=
  (align_bezier_cubic cosa sina bz).p1.x * (align_bezier_cubic cosa sina bz).p2.y

/-- Coefficient `d = aligned.p[3].x * aligned.p[2].y` of `inflection_points`. -/
def inflection_d (cosa sina : ℚ) (bz : HodoSegment) : ℚ :=
  (align_bezier_cubic cosa sina bz).p3.x * (align_bezier_cubic cosa sina bz).p2.y

/-- Quadratic coefficient `x = -3a + 2b + 3c - d` of `inflection_points`. -/
def inflection_x (cosa sina : ℚ) (bz : HodoSegment) : ℚ :=
  -3 * inflection_a cosa sina bz + 2 * inflection_b cosa sina bz +
    3 * inflection_c cosa sina bz - inflection_d cosa sina bz

/-- Linear coefficient `y = 3a - b - 3c` of `inflection_points`. -/
def inflection_y (cosa sina : ℚ) (bz : HodoSegment) : ℚ :=
  3 * inflection_a cosa sina bz - inflection_b cosa sina bz -
    3 * inflection_c cosa sina bz

/-- Constant coefficient `z = c - a` of `inflection_points`. -/
def inflection_z (cosa sina : ℚ) (bz : HodoSegment) : ℚ :=
  inflection_c cosa sina bz - inflection_a cosa sina bz

/-- Embedding of a `float` value that may be NaN: `some q` is an ordinary
(finite) value, `none` is NaN.  The control points and the polynomial
coefficients of the hodograph module are computed exactly from rational
inputs, so inside `inflection_points` NaN can only enter through the
UNGUARDED `sqrtf(det)` call (the C checks the discriminant in
`bezier_roots` but not here) and then propagates through the root
arithmetic. -/
abbrev FloatQ := Option ℚ

/-- IEEE `<` on possibly-NaN values: any comparison against NaN is false. -/
def fq_lt : FloatQ → FloatQ → Bool
  | some a, some b => decide (a < b)
  | _, _ => false

/-- IEEE `>` on possibly-NaN values: any comparison against NaN is false. -/
def fq_gt : FloatQ → FloatQ → Bool
  | some a, some b => decide (a > b)
  | _, _ => false

/-- A `Vector2` of possibly-NaN components: the root pairs the C returns
are plain float pairs, and NaN is representable in them. -/
structure Vector2N where
  x : FloatQ
  y : FloatQ
deriving DecidableEq, Repr

/-- The root fixup at the end of `inflection_points`, with IEEE comparison
semantics spelled out: a NaN component fails every test and is passed
through unchanged. -/
def roots_fixup_nan (rv : Vector2N) : Vector2N :=
  if fq_lt rv.x (some 0) then ⟨rv.y, some (-1)⟩
  else if fq_gt rv.x rv.y && fq_gt rv.y (some 0) then ⟨rv.y, rv.x⟩
  else rv

/-- `inflection_points` from `spline-gym/src/hodographs.c`: align, build the
degree-2 polynomial `x·t² + y·t + z` from cross products of the aligned
control points, solve, filter roots with `roots.x < 0 || roots.x > 1`
(note: a closed-interval keep whose comparisons are false on NaN), and run
the fixup (only on the quadratic path; the near-linear path returns after
filtering `.x`).  `sqrtf` is the value of the C `sqrtf` call: `none` models
the NaN that `sqrtf` returns on a negative argument (`det < 0` is NOT
guarded here, unlike in `bezier_roots`), and a NaN square root makes both
roots NaN via `Option.map`. -/
def inflection_points (cosa sina : ℚ) (sqrtf : ℚ → FloatQ) (bz : HodoSegment) : Vector2N :=
  if bz.order ≠ 3 then ⟨some (-1), some (-1)⟩
  else
    let x := inflection_x cosa sina bz
    let y := inflection_y cosa sina bz
    let z := inflection_z cosa sina bz
    if |x| < 1 / 1000000 then
      let rx : FloatQ := if |y| > 1 / 1000000 then some (-z / y) else some (-1)
      ⟨if fq_lt rx (some 0) || fq_gt rx (some 1) then some (-1) else rx, some (-1)⟩
    else
      let det := y * y - 4 * x * z
      let sq := sqrtf det
      let d2 := 2 * x
      let roots : Vector2N :=
        if |d2| > 1 / 1000000 then
          let rx := sq.map (fun s => -(y + s) / d2)
          let ry := sq.map (fun s => (s - y) / d2)
          ⟨if fq_lt rx (some 0) || fq_gt rx (some 1) then some (-1) else rx,
           if fq_lt ry (some 0) || fq_gt ry (some 1) then some (-1) else ry⟩
        else ⟨some (-1), some (-1)⟩
      roots_fixup_nan roots

/-! ## Treecode (`src-c/treecode/treecode.h`)

`TreecodeWord` is `uint64_t`; words are embedded as `ℕ` kept below `2⁶⁴` by
the operations themselves (all writes set or clear single bits of in-range
words).  The backing array plus capacity is embedded as a `List ℕ` whose
length is the capacity. -/

/-- Steps are left (`false`, bit 0) or right (`true`, bit 1). -/
abbrev TreecodeLorR := Bool

/-- Fuelled floor-log2 (structural recursion so the kernel can evaluate it;
`nat_log2_fuel 64 x` agrees with `Nat.log2 x` for every `x < 2⁶⁴`). -/
def nat_log2_fuel : ℕ → ℕ → ℕ
  | 0, _ => 0
  | fuel + 1, n => if n ≥ 2 then nat_log2_fuel fuel (n / 2) + 1 else 0

/-- `treecode_clz`: `__builtin_clzll` with the explicit zero guard the C has.
For `x ≠ 0` (and `x < 2⁶⁴`) this is `63 - log2 x`. -/
def treecode_clz (x : ℕ) : ℕ :=
  if x = 0 then 64 else 63 - nat_log2_fuel 64 x

/-- `treecode_set_bit_in_word`: set (`right`) or clear (`left`) bit
`bit_index`; clearing ANDs with the 64-bit complement of the mask. -/
def treecode_set_bit_in_word (word : ℕ) (bit_index : ℕ) (val : TreecodeLorR) : ℕ :=
  if val then word ||| (1 <<< bit_index)
  else word &&& (2 ^ 64 - 1 - (1 <<< bit_index))

/-- `treecode_word_append`: place the new step bit where the marker is and
move the marker one bit up (unless it would leave the word). -/
def treecode_word_append (target_word : ℕ) (new_branch : TreecodeLorR) : ℕ :=
  let significant_bits := 63 - treecode_clz target_word
  let new_val := treecode_set_bit_in_word target_word significant_bits new_branch
  if significant_bits = 63 then new_val
  else treecode_set_bit_in_word new_val (significant_bits + 1) true

/-- `Treecode`: length counter plus backing words (list length = capacity). -/
structure Treecode where
  code_length : ℕ
  words : List ℕ
deriving DecidableEq, Repr

/-- `treecode_init`: the empty treecode — one word holding only the marker. -/
def treecode_init : Treecode := ⟨0, [1]⟩

/-- `treecode_append` from `src-c/treecode/treecode.h`: bump the length, then
either append inside word 0, append inside the (unchanged) marker word, or
push the marker into a fresh word; `treecode_realloc` grows the capacity by
3 zero-filled words when the new marker index passes the last allocated bit. -/
def treecode_append (self : Treecode) (new_branch : TreecodeLorR) : Treecode :=
  let current_code_length := self.code_length
  let new_code_length := current_code_length + 1
  let new_marker_bit_index := new_code_length
  if new_marker_bit_index < 64 then
    ⟨new_code_length,
     self.words.set 0 (treecode_word_append (self.words.getD 0 0) new_branch)⟩
  else
    let last_allocated_index := self.words.length * 64 - 1
    let ws :=
      if new_marker_bit_index > last_allocated_index then self.words ++ [0, 0, 0]
      else self.words
    let new_marker_word := new_marker_bit_index / 64
    let new_data_word := current_code_length / 64
    if new_marker_word = new_data_word then
      ⟨new_code_length,
       ws.set new_marker_word (treecode_word_append (ws.getD new_marker_word 0) new_branch)⟩
    else
      let ws1 := ws.set new_marker_word 1
      ⟨new_code_length,
       ws1.set new_data_word (treecode_set_bit_in_word (ws1.getD new_data_word 0) 63 new_branch)⟩

/-- Run a sequence of appends from a starting treecode. -/
def treecode_append_all (t : Treecode) (branches : List TreecodeLorR) : Treecode :=
  branches.foldl treecode_append t

/-- `treecode_word_is_prefix_of`: single-word prefix test — mask off the
leading zeros plus the marker bit of `lhs` and compare the low bits. -/
def treecode_word_is_prefix_of (lhs rhs : ℕ) : Bool :=
  if lhs = rhs ∨ lhs = 1 then true
  else if lhs = 0 ∨ rhs = 0 then false
  else
    let lhs_leading_zeros := treecode_clz lhs + 1
    let mask := (1 <<< (64 - lhs_leading_zeros)) - 1
    decide ((lhs &&& mask) = (rhs &&& mask))

/-- `treecode_is_prefix_of` from `src-c/treecode/treecode.h`: length checks,
single-word fast path, otherwise compare the full words below the marker
word and finish with the single-word test on the marker word. -/
def treecode_is_prefix_of (self rhs : Treecode) : Bool :=
  let len_self := self.code_length
  if len_self = 0 then true
  else
    let len_rhs := rhs.code_length
    if len_rhs = 0 ∨ len_rhs < len_self then false
    else if len_self < 64 then
      treecode_word_is_prefix_of (self.words.getD 0 0) (rhs.words.getD 0 0)
    else
      let greatest_nonzero_index := len_self / 64
      if (List.range greatest_nonzero_index).all
          (fun i => self.words.getD i 0 = rhs.words.getD i 0) then
        treecode_word_is_prefix_of
          (self.words.getD greatest_nonzero_index 0)
          (rhs.words.getD greatest_nonzero_index 0)
      else false

/-! ## 32-bit rationals (`src/opentime.c`)

`ot_r32_t` has an `int32_t` numerator and a `uint32_t` denominator.  The
comparator reads both through `int32_t` locals, so the embedding keeps the
denominator as `ℕ` and converts with two's-complement wrapping. -/

/-- `ot_r32_t`: signed numerator, unsigned denominator. -/
structure OtR32 where
  num : ℤ
  den : ℕ
deriving DecidableEq, Repr

/-- Two's-complement reinterpretation of a `uint32_t` value as `int32_t`
(the conversion performed by `int32_t d_l = lh.den;`). -/
def u32_as_i32 (x : ℕ) : ℤ :=
  if x < 2 ^ 31 then (x : ℤ) else (x : ℤ) - 2 ^ 32

/-- The `while (r < 0) { r += d; --q; }` normalization loop of
`ot_r32_less_than`, with fuel (it terminates for positive `d`). -/
def r32_norm_loop : ℕ → ℤ → ℤ → ℤ → ℤ × ℤ
  | 0, q, r, _ => (q, r)
  | fuel + 1, q, r, d => if r < 0 then r32_norm_loop fuel (q - 1) (r + d) d else (q, r)

/-- The continued-fraction comparison loop of `ot_r32_less_than`, with fuel
(each pass replaces `d` by `r < d`, so `d_l + 1` fuel suffices for valid
input).  State mirrors the C locals `(n, d, q, r)` per side plus `reversed`. -/
def r32_cf_loop : ℕ → Bool → ℤ → ℤ → ℤ → ℤ → ℤ → ℤ → ℤ → ℤ → Bool
  | 0, _, _, _, _, _, _, _, _, _ => false
  | fuel + 1, reversed, _n_l, d_l, q_l, r_l, _n_r, d_r, q_r, r_r =>
    if q_l ≠ q_r then (if reversed then decide (q_l > q_r) else decide (q_l < q_r))
    else
      let reversed' := !reversed
      if r_l = 0 ∨ r_r = 0 then
        if r_l = r_r then false
        else decide (r_r ≠ 0) != reversed'
      else
        r32_cf_loop fuel reversed'
          d_l r_l (Int.tdiv d_l r_l) (Int.tmod d_l r_l)
          d_r r_r (Int.tdiv d_r r_r) (Int.tmod d_r r_r)

/-- `ot_r32_less_than` from `src/opentime.c` (after boost's
continued-fraction `operator<`).  The leading `den < 0` test is on unsigned
operands and is always false; divisions are C truncating divisions
(`Int.tdiv` / `Int.tmod`). -/
def ot_r32_less_than (lh rh : OtR32) : Bool :=
  if (lh.den : ℤ) < 0 ∨ (rh.den : ℤ) < 0 then false
  else
    let n_l := lh.num
    let d_l := u32_as_i32 lh.den
    let q_l := Int.tdiv n_l d_l
    let r_l := Int.tmod n_l d_l
    let n_r := rh.num
    let d_r := u32_as_i32 rh.den
    let q_r := Int.tdiv n_r d_r
    let r_r := Int.tmod n_r d_r
    let nl := r32_norm_loop (r_l.natAbs + 1) q_l r_l d_l
    let nr := r32_norm_loop (r_r.natAbs + 1) q_r r_r d_r
    r32_cf_loop (d_l.natAbs + 1) false n_l d_l nl.1 nl.2 n_r d_r nr.1 nr.2

/-! ## Theorems -/

/-- C4: `continuous_interval_overlaps(i, o)` is true iff `o ∈ [start, end)`,
except that an instant interval (`start == end`) overlaps exactly the point
equal to `start`; consequently a (valid) non-instant interval overlaps its
start and not its end. -/
theorem continuous_interval_overlaps_spec (i : ContinuousInterval) (o : ℚ) :
    (continuous_interval_overlaps i o = true ↔
      (if i.start = i.end_ then o = i.start else i.start ≤ o ∧ o < i.end_)) ∧
    (i.start < i.end_ →
      continuous_interval_overlaps i i.start = true ∧
      continuous_interval_overlaps i i.end_ = false) := by
  constructor
  · unfold continuous_interval_overlaps
    split_ifs with ha hb hb
    · simp only [true_iff]
      exact ha.2.symm
    · exact absurd ha.1 hb
    · have ho : i.start ≠ o := fun e => ha ⟨hb, e⟩
      simp only [Bool.and_eq_true, decide_eq_true_eq, ge_iff_le]
      constructor
      · rintro ⟨h1, h2⟩
        rw [← hb] at h2
        exact absurd (lt_of_le_of_lt h1 h2) (lt_irrefl _)
      · intro e
        exact absurd e.symm ho
    · simp only [Bool.and_eq_true, decide_eq_true_eq, ge_iff_le]
  · intro hlt
    have hne : ¬ i.start = i.end_ := ne_of_lt hlt
    unfold continuous_interval_overlaps
    constructor
    · simp [hne, le_refl, hlt]
    · simp [hne]

/-- C4 witness: on the non-instant interval `[0, 1)`, the start overlaps and
the end does not. -/
theorem continuous_interval_overlaps_spec_witness :
    continuous_interval_overlaps ⟨0, 1⟩ 0 = true ∧
    continuous_interval_overlaps ⟨0, 1⟩ 1 = false :=
  (continuous_interval_overlaps_spec ⟨0, 1⟩ 0).2 (by norm_num)

/-- C9: `bezier_segment_init_from_start_end` refuses to build a segment when
`end.in < start.in` and instead returns the degenerate identity segment over
`[start.in, start.in]` — all four control points equal `(start.in, start.in)`;
when `end.in >= start.in` it returns the linear segment with `p1`, `p2` at
the 1/3 and 2/3 interpolants. -/
theorem bezier_segment_init_from_start_end_spec (start stop : ControlPoint) :
    (stop.inp < start.inp →
      bezier_segment_init_from_start_end start stop =
        ⟨⟨start.inp, start.inp⟩, ⟨start.inp, start.inp⟩,
         ⟨start.inp, start.inp⟩, ⟨start.inp, start.inp⟩⟩) ∧
    (start.inp ≤ stop.inp →
      bezier_segment_init_from_start_end start stop =
        ⟨start, control_point_lerp (1 / 3) start stop,
         control_point_lerp (2 / 3) start stop, stop⟩) := by
  constructor
  · intro h
    rw [bezier_segment_init_from_start_end, if_pos h]
    unfold bezier_segment_init_identity control_point_lerp opentime_lerp
    simp only [BezierSegment.mk.injEq, ControlPoint.mk.injEq]
    norm_num
    exact ⟨by ring, by ring⟩
  · intro h
    rw [bezier_segment_init_from_start_end, if_neg (not_lt.mpr h)]

/-- C9 witness: a reversed pair `(1,·) → (0,·)` collapses to the degenerate
identity at `in = 1`; an ordered pair builds the linear segment. -/
theorem bezier_segment_init_from_start_end_spec_witness :
    bezier_segment_init_from_start_end ⟨1, 5⟩ ⟨0, 7⟩ =
      ⟨⟨1, 1⟩, ⟨1, 1⟩, ⟨1, 1⟩, ⟨1, 1⟩⟩ ∧
    bezier_segment_init_from_start_end ⟨0, 0⟩ ⟨1, 2⟩ =
      ⟨⟨0, 0⟩, control_point_lerp (1 / 3) ⟨0, 0⟩ ⟨1, 2⟩,
       control_point_lerp (2 / 3) ⟨0, 0⟩ ⟨1, 2⟩, ⟨1, 2⟩⟩ :=
  ⟨(bezier_segment_init_from_start_end_spec ⟨1, 5⟩ ⟨0, 7⟩).1 (by norm_num),
   (bezier_segment_init_from_start_end_spec ⟨0, 0⟩ ⟨1, 2⟩).2 (by norm_num)⟩

/-- C3: for `CURVE_EPSILON ≤ u < 1`, `bezier_segment_split_at` succeeds and
the two halves share the de Casteljau point at `u` exactly (`L.p3 = R.p0 =`
the segment's evaluation at `u`), with `L.p0 = s.p0` and `R.p3 = s.p3`; for
`u` outside that range it signals failure. -/
theorem bezier_segment_split_at_spec (seg : BezierSegment) (u : ℚ) :
    (CURVE_EPSILON ≤ u ∧ u < 1 →
      ∃ L R, bezier_segment_split_at seg u = some (L, R) ∧
        L.p3 = R.p0 ∧ L.p3 = bezier_segment_eval_at seg u ∧
        L.p0 = seg.p0 ∧ R.p3 = seg.p3) ∧
    (u < CURVE_EPSILON ∨ 1 ≤ u → bezier_segment_split_at seg u = none) := by
  constructor
  · rintro ⟨h1, h2⟩
    have hguard : ¬(u < CURVE_EPSILON ∨ u ≥ 1) := by
      push_neg
      exact ⟨h1, h2⟩
    rw [bezier_segment_split_at, if_neg hguard]
    exact ⟨_, _, rfl, rfl, rfl, rfl, rfl⟩
  · intro h
    rw [bezier_segment_split_at, if_pos]
    rcases h with h | h
    · exact Or.inl h
    · exact Or.inr h

/-- C3 witness: splitting the identity segment over `[0, 1]` at `u = 1/2`
succeeds with an exactly shared seam; splitting at `u = 1` fails. -/
theorem bezier_segment_split_at_spec_witness :
    (∃ L R, bezier_segment_split_at (bezier_segment_init_identity 0 1) (1 / 2) =
        some (L, R) ∧
      L.p3 = R.p0 ∧
      L.p3 = bezier_segment_eval_at (bezier_segment_init_identity 0 1) (1 / 2) ∧
      L.p0 = (bezier_segment_init_identity 0 1).p0 ∧
      R.p3 = (bezier_segment_init_identity 0 1).p3) ∧
    bezier_segment_split_at (bezier_segment_init_identity 0 1) 1 = none :=
  ⟨(bezier_segment_split_at_spec (bezier_segment_init_identity 0 1) (1 / 2)).1
      (by norm_num [CURVE_EPSILON]),
   (bezier_segment_split_at_spec (bezier_segment_init_identity 0 1) 1).2
      (Or.inr le_rfl)⟩

/-- C1 counterexample: at `x = 0`, `p1 = p2 = p3 = 0` (the degenerate but
monotone-nondecreasing bezier0 form) we have `x ≥ p3`, yet `bezier_find_u`
returns `0`, not `1`: the `x ≤ 0` clamp takes precedence over the
`x ≥ p3` clamp, so the claim's second conditional is false as stated. -/
theorem bezier_find_u_boundary_cex :
    (0 : ℚ) ≥ (0 : ℚ) ∧ bezier_find_u 0 0 0 0 = 0 ∧ (0 : ℚ) ≠ 1 := by
  refine ⟨le_refl _, ?_, by norm_num⟩
  rw [bezier_find_u, bezier_find_u_instr, if_pos le_rfl]

/-- C1 (amended): `bezier_find_u` clamps `x ≤ 0` to exactly `0.0`; otherwise
(`x > 0`) it clamps `x ≥ p3` to exactly `1.0`; in particular
`find_u(0) = 0`, and `find_u(p3) = 1` whenever `p3 > 0`. -/
theorem bezier_find_u_boundary (x p1 p2 p3 : ℚ) :
    (x ≤ 0 → bezier_find_u x p1 p2 p3 = 0) ∧
    (0 < x → p3 ≤ x → bezier_find_u x p1 p2 p3 = 1) ∧
    bezier_find_u 0 p1 p2 p3 = 0 ∧
    (0 < p3 → bezier_find_u p3 p1 p2 p3 = 1) := by
  have h0 : ∀ y q3, y ≤ 0 → bezier_find_u y p1 p2 q3 = 0 := by
    intro y q3 hy
    rw [bezier_find_u, bezier_find_u_instr, if_pos hy]
  have h1 : ∀ y q3, 0 < y → q3 ≤ y → bezier_find_u y p1 p2 q3 = 1 := by
    intro y q3 hy hq
    rw [bezier_find_u, bezier_find_u_instr, if_neg (not_le.mpr hy), if_pos hq]
  exact ⟨h0 x p3, h1 x p3, h0 0 p3 le_rfl, fun hp => h1 p3 p3 hp le_rfl⟩

/-- C1 witness: the clamps at concrete inputs — `find_u(-1) = 0` and
`find_u(2) = 1` on the curve with `p3 = 1`, plus `find_u(p3) = 1` for
`p3 = 1 > 0`. -/
theorem bezier_find_u_boundary_witness :
    bezier_find_u (-1) 0 0 1 = 0 ∧ bezier_find_u 2 0 0 1 = 1 ∧
    bezier_find_u 1 0 0 1 = 1 :=
  ⟨(bezier_find_u_boundary (-1) 0 0 1).1 (by norm_num),
   (bezier_find_u_boundary 2 0 0 1).2.1 (by norm_num) (by norm_num),
   (bezier_find_u_boundary 1 0 0 1).2.2.2 (by norm_num)⟩

/-- C2 helper: the Illinois loop performs at most `fuel` evaluations of the
bezier0 polynomial. -/
theorem bezier_find_u_loop_count (x p1 p2 p3 : ℚ) (fuel : ℕ) :
    ∀ u1 x1 u2 x2, (bezier_find_u_loop x p1 p2 p3 fuel u1 x1 u2 x2).2 ≤ fuel := by
  induction fuel with
  | zero =>
    intro u1 x1 u2 x2
    simp [bezier_find_u_loop]
  | succ n ih =>
    intro u1 x1 u2 x2
    rw [bezier_find_u_loop]
    dsimp only
    split_ifs <;>
      first
        | exact Nat.succ_le_succ (Nat.zero_le n)
        | exact Nat.succ_le_succ (ih _ _ _ _)

/-- C2: `bezier_find_u` always terminates within budget — for every input it
evaluates the bezier0 polynomial at most 45 times (one regula-falsi step
plus at most 44 Illinois iterations); the iteration also stops as soon as
the bracket width drops to `2·ε_double`, and the fallthrough return picks
the bracket endpoint with the smaller absolute residual (both visible in
the definition of `bezier_find_u_loop`). -/
theorem bezier_find_u_eval_count (x p1 p2 p3 : ℚ) :
    (bezier_find_u_instr x p1 p2 p3).2 ≤ 45 := by
  rw [bezier_find_u_instr]
  dsimp only
  split_ifs
  · exact Nat.zero_le 45
  · exact Nat.zero_le 45
  · norm_num
  · norm_num
  · norm_num
  · exact Nat.succ_le_succ (le_trans (bezier_find_u_loop_count x p1 p2 p3 44 _ _ _ _)
      (by norm_num))
  · norm_num
  · norm_num
  · exact Nat.succ_le_succ (le_trans (bezier_find_u_loop_count x p1 p2 p3 44 _ _ _ _)
      (by norm_num))

/-- C6 counterexample: with `p0..p3 = 0, 1, 2, 3 + 1e-5` the cubic
coefficient is `d = 1e-5`.  Against the claimed threshold `1e-6` the curve
would be cubic (order 3); `bezier_actual_order` tests against
`ORDINATE_EPSILON = 1e-4` and classifies it as linear (order 1). -/
theorem bezier_actual_order_threshold_cex :
    bezier_actual_order 0 1 2 (3 + 1 / 100000) = 1 ∧
    bezier_actual_order_spec (1 / 1000000) 0 1 2 (3 + 1 / 100000) = 3 ∧
    (1 : ℤ) ≠ 3 := by
  refine ⟨?_, ?_, by norm_num⟩ <;>
    norm_num [bezier_actual_order, bezier_actual_order_spec, bezier_coeff_d,
      bezier_coeff_a, bezier_coeff_b, ORDINATE_EPSILON, abs_lt]

/-- C6 (amended): the threshold constants of the contract are `1e-4` in both
places — `bezier_actual_order` classifies coefficient magnitudes against
`ORDINATE_EPSILON = 1e-4` (not `1e-6`), and `bezier_roots` takes its linear
fallback exactly when the quadratic coefficient satisfies `|a| ≤ 1e-4`, in
which case its result is the linear-branch root and is independent of the
square-root oracle. -/
theorem bezier_threshold_constants (f g : ℚ → ℚ) (bz : HodoSegment) :
    (∀ p0 p1 p2 p3 : ℚ, bezier_actual_order p0 p1 p2 p3 =
        bezier_actual_order_spec (1 / 10000) p0 p1 p2 p3) ∧
    (bz.order = 2 → |bezier_roots_a bz| ≤ 1 / 10000 →
      bezier_roots f bz =
        bezier_roots_linear_branch (bezier_roots_b bz) (bezier_roots_c bz) ∧
      bezier_roots f bz = bezier_roots g bz) := by
  constructor
  · intro p0 p1 p2 p3
    rfl
  · intro horder ha
    have hlin : ∀ h : ℚ → ℚ, bezier_roots h bz =
        bezier_roots_linear_branch (bezier_roots_b bz) (bezier_roots_c bz) := by
      intro h
      rw [bezier_roots, if_neg, if_pos horder, if_pos ha]
      rw [horder]
      norm_num
    exact ⟨hlin f, (hlin f).trans (hlin g).symm⟩

/-- C6 witness: at the zero-quadratic-coefficient hodograph segment
`(0,0)-(1,1)-(2,2)` the fallback fires with `b = 2`, `c = 0`: the linear
root is `t = 0`, rejected by the open-interval filter, so the result is
`(-1, -1)` for every square-root oracle. -/
theorem bezier_threshold_constants_witness :
    bezier_roots id ⟨2, ⟨0, 0⟩, ⟨1, 1⟩, ⟨2, 2⟩, ⟨0, 0⟩⟩ =
      bezier_roots_linear_branch
        (bezier_roots_b ⟨2, ⟨0, 0⟩, ⟨1, 1⟩, ⟨2, 2⟩, ⟨0, 0⟩⟩)
        (bezier_roots_c ⟨2, ⟨0, 0⟩, ⟨1, 1⟩, ⟨2, 2⟩, ⟨0, 0⟩⟩) ∧
    bezier_roots id ⟨2, ⟨0, 0⟩, ⟨1, 1⟩, ⟨2, 2⟩, ⟨0, 0⟩⟩ =
      bezier_roots (fun _ => 0) ⟨2, ⟨0, 0⟩, ⟨1, 1⟩, ⟨2, 2⟩, ⟨0, 0⟩⟩ :=
  (bezier_threshold_constants id (fun _ => 0) ⟨2, ⟨0, 0⟩, ⟨1, 1⟩, ⟨2, 2⟩, ⟨0, 0⟩⟩).2
    rfl (by norm_num [bezier_roots_a])

/-- C5 helper: the open-interval root filter of `bezier_roots` keeps only
values in `(0, 1)`. -/
theorem bezier_roots_filter_open (t : ℚ) :
    (if t > 0 ∧ t < 1 then t else (-1 : ℚ)) = -1 ∨
    (0 < (if t > 0 ∧ t < 1 then t else (-1 : ℚ)) ∧
      (if t > 0 ∧ t < 1 then t else (-1 : ℚ)) < 1) := by
  split_ifs with h
  · exact Or.inr h
  · exact Or.inl rfl

/-- C5 helper: every finite value the closed-interval root filter of
`inflection_points` keeps is `-1` or in `[0, 1]`; a NaN input passes
through as NaN (the comparisons are false), producing no finite value. -/
theorem inflection_filter_closed (t : FloatQ) :
    ∀ v : ℚ, (if fq_lt t (some 0) || fq_gt t (some 1) then some (-1) else t) = some v →
      v = -1 ∨ (0 ≤ v ∧ v ≤ 1) := by
  intro v h
  split_ifs at h with hc
  · injection h with h
    exact Or.inl h.symm
  · cases t with
    | none => exact absurd h (by simp)
    | some u =>
      injection h with h
      subst h
      simp only [fq_lt, fq_gt, Bool.or_eq_true, decide_eq_true_eq] at hc
      push_neg at hc
      exact Or.inr hc

/-- C5 helper: `roots_fixup` preserves membership of both components in
`{-1} ∪ (0, 1)` and makes the pair sorted whenever the second component is
present (`≠ -1`). -/
theorem roots_fixup_open (v : Vector2)
    (hx : v.x = -1 ∨ 0 < v.x ∧ v.x < 1) (hy : v.y = -1 ∨ 0 < v.y ∧ v.y < 1) :
    ((roots_fixup v).x = -1 ∨ 0 < (roots_fixup v).x ∧ (roots_fixup v).x < 1) ∧
    ((roots_fixup v).y = -1 ∨ 0 < (roots_fixup v).y ∧ (roots_fixup v).y < 1) ∧
    ((roots_fixup v).y ≠ -1 → (roots_fixup v).x ≤ (roots_fixup v).y) := by
  unfold roots_fixup
  split_ifs with h1 h2
  · exact ⟨hy, Or.inl rfl, fun h => absurd rfl h⟩
  · have hx' : 0 < v.x ∧ v.x < 1 := by
      rcases hx with h | h
      · rw [h] at h1
        norm_num at h1
      · exact h
    have hy' : 0 < v.y ∧ v.y < 1 := by
      rcases hy with h | h
      · rw [h] at h2
        exact absurd h2.2 (by norm_num)
      · exact h
    exact ⟨Or.inr hy', Or.inr hx', fun _ => le_of_lt h2.1⟩
  · refine ⟨hx, hy, fun hne => ?_⟩
    rcases hy with h | h
    · exact absurd h hne
    · exact not_lt.mp (fun hgt => h2 ⟨hgt, h.1⟩)

/-- C5 helper: `roots_fixup_nan` preserves "every finite component is `-1`
or in `[0, 1]`" and sorts the pair whenever both components are finite and
strictly positive; NaN components fail every comparison and are passed
through. -/
theorem roots_fixup_nan_spec (rv : Vector2N)
    (hx : ∀ v : ℚ, rv.x = some v → v = -1 ∨ (0 ≤ v ∧ v ≤ 1))
    (hy : ∀ v : ℚ, rv.y = some v → v = -1 ∨ (0 ≤ v ∧ v ≤ 1)) :
    (∀ v : ℚ, (roots_fixup_nan rv).x = some v → v = -1 ∨ (0 ≤ v ∧ v ≤ 1)) ∧
    (∀ v : ℚ, (roots_fixup_nan rv).y = some v → v = -1 ∨ (0 ≤ v ∧ v ≤ 1)) ∧
    (∀ a b : ℚ, (roots_fixup_nan rv).x = some a → (roots_fixup_nan rv).y = some b →
      0 < a → 0 < b → a ≤ b) := by
  unfold roots_fixup_nan
  split_ifs with h1 h2
  · refine ⟨hy, ?_, ?_⟩
    · intro v hv
      injection hv with hv
      exact Or.inl hv.symm
    · intro a b _ hb _ hpb
      injection hb with hb
      rw [← hb] at hpb
      norm_num at hpb
  · refine ⟨hy, hx, ?_⟩
    intro a b ha hb _ _
    rw [Bool.and_eq_true] at h2
    have hgt := h2.1
    rw [show rv.y = some a from ha, show rv.x = some b from hb] at hgt
    simp only [fq_gt, decide_eq_true_eq] at hgt
    exact le_of_lt hgt
  · refine ⟨hx, hy, ?_⟩
    intro a b ha hb hpa hpb
    by_contra hab
    push_neg at hab
    apply h2
    rw [Bool.and_eq_true]
    constructor
    · rw [show rv.x = some a from ha, show rv.y = some b from hb]
      simp only [fq_gt, decide_eq_true_eq]
      exact hab
    · rw [show rv.y = some b from hb]
      simp only [fq_gt, decide_eq_true_eq]
      exact hpb

/-- C5 helper: the linear fallback branch of `bezier_roots` returns a first
component in `{-1} ∪ (0, 1)` and an absent second component. -/
theorem bezier_roots_linear_branch_range (b c : ℚ) :
    ((bezier_roots_linear_branch b c).x = -1 ∨
      0 < (bezier_roots_linear_branch b c).x ∧ (bezier_roots_linear_branch b c).x < 1) ∧
    ((bezier_roots_linear_branch b c).y = -1 ∨
      0 < (bezier_roots_linear_branch b c).y ∧ (bezier_roots_linear_branch b c).y < 1) ∧
    ((bezier_roots_linear_branch b c).y ≠ -1 →
      (bezier_roots_linear_branch b c).x ≤ (bezier_roots_linear_branch b c).y) := by
  unfold bezier_roots_linear_branch
  dsimp only
  split_ifs with h1 h2
  · exact ⟨Or.inl rfl, Or.inl rfl, fun h => absurd rfl h⟩
  · exact ⟨Or.inr h2, Or.inl rfl, fun h => absurd rfl h⟩
  · exact ⟨Or.inl rfl, Or.inl rfl, fun h => absurd rfl h⟩

/-- C5 counterexample: three cubic segments (all already in aligned
position, so the C alignment is the exact identity rotation `cosa = 1`,
`sina = 0`, since `atan2f(0, dx) = 0`, `cosf(-0) = 1`, `sinf(-0) = ∓0`
exactly).

For `(0,0)-(1,1)-(2,2)-(3,0)` the inflection polynomial degenerates to the
linear case with root exactly `t = 0`; the closed filter keeps it, so a
returned component is neither `-1` nor strictly inside `(0, 1)`.

For `(0,0)-(1,-1)-(1,-1)-(1,0)` the discriminant is `1` (`sqrtf(1) = 1`
exactly, so the oracle `fun _ => some 1` agrees with the C `sqrtf` at the
call) and the result is `(1, 0)`: both components present but not sorted
ascending.

For `(0,0)-(0,1)-(1,2)-(1,0)` the coefficients are `x = -3`, `y = 2`,
`z = -1` and the discriminant is `det = -8`: the UNGUARDED `sqrtf(-8)`
returns NaN (oracle `fun _ => none`), both roots become NaN, every filter
and fixup comparison is false on NaN, and the function returns the pair
`(NaN, NaN)` — neither `-1` nor in `(0, 1)`. -/
theorem inflection_points_open_interval_cex :
    inflection_points 1 0 (fun _ => some 0) ⟨3, ⟨0, 0⟩, ⟨1, 1⟩, ⟨2, 2⟩, ⟨3, 0⟩⟩ =
      ⟨some 0, some (-1)⟩ ∧
    ¬((0 : ℚ) = -1 ∨ (0 < (0 : ℚ) ∧ (0 : ℚ) < 1)) ∧
    inflection_points 1 0 (fun _ => some 1) ⟨3, ⟨0, 0⟩, ⟨1, -1⟩, ⟨1, -1⟩, ⟨1, 0⟩⟩ =
      ⟨some 1, some 0⟩ ∧
    ¬((1 : ℚ) ≤ (0 : ℚ)) ∧
    inflection_points 1 0 (fun _ => none) ⟨3, ⟨0, 0⟩, ⟨0, 1⟩, ⟨1, 2⟩, ⟨1, 0⟩⟩ =
      ⟨none, none⟩ := by
  refine ⟨?_, by norm_num, ?_, by norm_num, ?_⟩ <;>
    norm_num [inflection_points, inflection_x, inflection_y, inflection_z,
      inflection_a, inflection_b, inflection_c, inflection_d,
      align_bezier_cubic, roots_fixup_nan, fq_lt, fq_gt]

/-- C5 (amended): for every quadratic hodograph segment, each component
returned by `bezier_roots` is `-1` or strictly inside `(0, 1)`, and the
pair is sorted ascending when the second component is present.  For every
cubic segment, every FINITE component returned by `inflection_points` is
`-1` or inside the closed interval `[0, 1]` (the inflection filter keeps
the endpoints), and the pair is sorted ascending when both components are
finite and strictly positive; a component may also be NaN, since a
negative discriminant reaches `sqrtf` unguarded and the NaN passes the
filters.  Both statements hold for every square-root oracle (including the
NaN-returning ones) and every rotation. -/
theorem critical_point_root_ranges (f : ℚ → ℚ) (g : ℚ → FloatQ) (cosa sina : ℚ)
    (bq bz : HodoSegment) :
    (bq.order = 2 →
      ((bezier_roots f bq).x = -1 ∨
        0 < (bezier_roots f bq).x ∧ (bezier_roots f bq).x < 1) ∧
      ((bezier_roots f bq).y = -1 ∨
        0 < (bezier_roots f bq).y ∧ (bezier_roots f bq).y < 1) ∧
      ((bezier_roots f bq).y ≠ -1 → (bezier_roots f bq).x ≤ (bezier_roots f bq).y)) ∧
    (bz.order = 3 →
      (∀ v : ℚ, (inflection_points cosa sina g bz).x = some v →
        v = -1 ∨ (0 ≤ v ∧ v ≤ 1)) ∧
      (∀ v : ℚ, (inflection_points cosa sina g bz).y = some v →
        v = -1 ∨ (0 ≤ v ∧ v ≤ 1)) ∧
      (∀ a b : ℚ, (inflection_points cosa sina g bz).x = some a →
        (inflection_points cosa sina g bz).y = some b → 0 < a → 0 < b → a ≤ b)) := by
  constructor
  · intro h2
    rw [bezier_roots, if_neg (by rw [h2]; norm_num), if_pos h2]
    dsimp only
    by_cases ha : |bezier_roots_a bq| ≤ 1 / 10000
    · rw [if_pos ha]
      exact bezier_roots_linear_branch_range _ _
    · rw [if_neg ha]
      by_cases hdisc : bezier_roots_b bq * bezier_roots_b bq -
          4 * bezier_roots_a bq * bezier_roots_c bq < 0
      · rw [if_pos hdisc]
        exact ⟨Or.inl rfl, Or.inl rfl, fun h => absurd rfl h⟩
      · rw [if_neg hdisc]
        exact roots_fixup_open _ (bezier_roots_filter_open _) (bezier_roots_filter_open _)
  · intro h3
    rw [inflection_points, if_neg (fun hn => hn h3)]
    dsimp only
    by_cases hx6 : |inflection_x cosa sina bz| < 1 / 1000000
    · rw [if_pos hx6]
      refine ⟨inflection_filter_closed _, ?_, ?_⟩
      · intro v hv
        injection hv with hv
        exact Or.inl hv.symm
      · intro a b _ hb _ hpb
        injection hb with hb
        rw [← hb] at hpb
        norm_num at hpb
    · rw [if_neg hx6]
      by_cases hd2 : |2 * inflection_x cosa sina bz| > 1 / 1000000
      · rw [if_pos hd2]
        exact roots_fixup_nan_spec _ (inflection_filter_closed _) (inflection_filter_closed _)
      · rw [if_neg hd2]
        refine roots_fixup_nan_spec _ ?_ ?_ <;>
          · intro v hv
            injection hv with hv
            exact Or.inl hv.symm

/-- C5 witness: concrete instances of both halves — a quadratic hodograph
segment for `bezier_roots`, and for `inflection_points` the negative
discriminant cubic with the NaN-returning oracle (the faithful one there,
since `det = -8 < 0`). -/
theorem critical_point_root_ranges_witness :
    (((bezier_roots id ⟨2, ⟨0, 3⟩, ⟨1, -3⟩, ⟨2, 3⟩, ⟨0, 0⟩⟩).x = -1 ∨
        0 < (bezier_roots id ⟨2, ⟨0, 3⟩, ⟨1, -3⟩, ⟨2, 3⟩, ⟨0, 0⟩⟩).x ∧
          (bezier_roots id ⟨2, ⟨0, 3⟩, ⟨1, -3⟩, ⟨2, 3⟩, ⟨0, 0⟩⟩).x < 1) ∧
      ((bezier_roots id ⟨2, ⟨0, 3⟩, ⟨1, -3⟩, ⟨2, 3⟩, ⟨0, 0⟩⟩).y = -1 ∨
        0 < (bezier_roots id ⟨2, ⟨0, 3⟩, ⟨1, -3⟩, ⟨2, 3⟩, ⟨0, 0⟩⟩).y ∧
          (bezier_roots id ⟨2, ⟨0, 3⟩, ⟨1, -3⟩, ⟨2, 3⟩, ⟨0, 0⟩⟩).y < 1) ∧
      ((bezier_roots id ⟨2, ⟨0, 3⟩, ⟨1, -3⟩, ⟨2, 3⟩, ⟨0, 0⟩⟩).y ≠ -1 →
        (bezier_roots id ⟨2, ⟨0, 3⟩, ⟨1, -3⟩, ⟨2, 3⟩, ⟨0, 0⟩⟩).x ≤
          (bezier_roots id ⟨2, ⟨0, 3⟩, ⟨1, -3⟩, ⟨2, 3⟩, ⟨0, 0⟩⟩).y)) ∧
    (∀ v : ℚ,
      (inflection_points 1 0 (fun _ => none) ⟨3, ⟨0, 0⟩, ⟨0, 1⟩, ⟨1, 2⟩, ⟨1, 0⟩⟩).x =
        some v → v = -1 ∨ (0 ≤ v ∧ v ≤ 1)) :=
  ⟨(critical_point_root_ranges id (fun _ => none) 1 0
      ⟨2, ⟨0, 3⟩, ⟨1, -3⟩, ⟨2, 3⟩, ⟨0, 0⟩⟩ ⟨3, ⟨0, 0⟩, ⟨0, 1⟩, ⟨1, 2⟩, ⟨1, 0⟩⟩).1 rfl,
   ((critical_point_root_ranges id (fun _ => none) 1 0
      ⟨2, ⟨0, 3⟩, ⟨1, -3⟩, ⟨2, 3⟩, ⟨0, 0⟩⟩ ⟨3, ⟨0, 0⟩, ⟨0, 1⟩, ⟨1, 2⟩, ⟨1, 0⟩⟩).2 rfl).1⟩

/-- C10 helper: the final pair of a knot list with at least two knots
(`knots[knot_count-2]`, `knots[knot_count-1]`). -/
def last_two_knots : ControlPoint → ControlPoint → List ControlPoint →
    ControlPoint × ControlPoint
  | p0, p1, [] => (p0, p1)
  | _, p1, p2 :: rest => last_two_knots p1 p2 rest

/-- C10 helper: when no adjacent knot pair's half-open input range contains
the input, the forward scan lands in its `i == knot_count - 2` fallback and
interpolates from the final pair. -/
theorem linear_curve_scan_output_fallback (x : ℚ) :
    ∀ (p0 p1 : ControlPoint) (rest : List ControlPoint),
      List.Chain' (fun a b => linear_curve_in_segment a b x = false) (p0 :: p1 :: rest) →
      linear_curve_scan_output x p0 p1 rest =
        output_at_input_between x (last_two_knots p0 p1 rest).1
          (last_two_knots p0 p1 rest).2 := by
  intro p0 p1 rest
  induction rest generalizing p0 p1 with
  | nil =>
    intro _
    rfl
  | cons p2 rest ih =>
    intro hchain
    rw [List.chain'_cons] at hchain
    rw [linear_curve_scan_output, if_neg (by rw [hchain.1]; exact Bool.false_ne_true)]
    exact ih p1 p2 hchain.2

/-- C10 helper: the inverse scan behaves symmetrically in output space. -/
theorem linear_curve_scan_input_fallback (v : ℚ) :
    ∀ (p0 p1 : ControlPoint) (rest : List ControlPoint),
      List.Chain' (fun a b => linear_curve_in_segment_output a b v = false) (p0 :: p1 :: rest) →
      linear_curve_scan_input v p0 p1 rest =
        input_at_output_between v (last_two_knots p0 p1 rest).1
          (last_two_knots p0 p1 rest).2 := by
  intro p0 p1 rest
  induction rest generalizing p0 p1 with
  | nil =>
    intro _
    rfl
  | cons p2 rest ih =>
    intro hchain
    rw [List.chain'_cons] at hchain
    rw [linear_curve_scan_input, if_neg (by rw [hchain.1]; exact Bool.false_ne_true)]
    exact ih p1 p2 hchain.2

/-- C10: on a monotonic linear curve with at least two knots, an input
ordinate contained in no knot segment's half-open input range does not make
`linear_curve_monotonic_output_at_input` fail: the lookup returns the linear
interpolant computed from the final pair of knots (the `i == knot_count - 2`
fallback), i.e. it extrapolates the last segment; the inverse lookup
`input_at_output` behaves symmetrically for an output ordinate contained in
no knot segment's half-open output range. -/
theorem linear_curve_monotonic_extrapolates (p0 p1 : ControlPoint)
    (rest : List ControlPoint) (x v : ℚ)
    (hin : List.Chain' (fun a b => linear_curve_in_segment a b x = false)
      (p0 :: p1 :: rest))
    (hout : List.Chain' (fun a b => linear_curve_in_segment_output a b v = false)
      (p0 :: p1 :: rest)) :
    linear_curve_monotonic_output_at_input (p0 :: p1 :: rest) x =
      output_at_input_between x (last_two_knots p0 p1 rest).1
        (last_two_knots p0 p1 rest).2 ∧
    linear_curve_monotonic_input_at_output (p0 :: p1 :: rest) v =
      input_at_output_between v (last_two_knots p0 p1 rest).1
        (last_two_knots p0 p1 rest).2 :=
  ⟨linear_curve_scan_output_fallback x p0 p1 rest hin,
   linear_curve_scan_input_fallback v p0 p1 rest hout⟩

/-- C10 witness: on the identity polyline over `[0, 1]`, the input `5` lies
outside every knot segment, and both lookups extrapolate the (only) final
segment: `output_at_input(5) = 5` and `input_at_output(5) = 5`. -/
theorem linear_curve_monotonic_extrapolates_witness :
    linear_curve_monotonic_output_at_input [⟨0, 0⟩, ⟨1, 1⟩] 5 =
      output_at_input_between 5 ⟨0, 0⟩ ⟨1, 1⟩ ∧
    linear_curve_monotonic_input_at_output [⟨0, 0⟩, ⟨1, 1⟩] 5 =
      input_at_output_between 5 ⟨0, 0⟩ ⟨1, 1⟩ :=
  linear_curve_monotonic_extrapolates ⟨0, 0⟩ ⟨1, 1⟩ [] 5 5
    (by simp [linear_curve_in_segment])
    (by simp [linear_curve_in_segment_output])

/-- C7 helper: every path of `treecode_append` increments `code_length` by
exactly one. -/
theorem treecode_append_code_length (t : Treecode) (b : TreecodeLorR) :
    (treecode_append t b).code_length = t.code_length + 1 := by
  unfold treecode_append
  dsimp only
  split_ifs <;> rfl

/-- C7 helper: appending a branch sequence adds its length to `code_length`. -/
theorem treecode_append_all_code_length (bs : List TreecodeLorR) :
    ∀ t : Treecode, (treecode_append_all t bs).code_length = t.code_length + bs.length := by
  induction bs with
  | nil =>
    intro t
    simp [treecode_append_all]
  | cons b bs ih =>
    intro t
    have : treecode_append_all t (b :: bs) = treecode_append_all (treecode_append t b) bs := rfl
    rw [this, ih, treecode_append_code_length]
    simp
    omega

set_option maxRecDepth 100000 in
/-- C7: for every append sequence, `code_length` equals the number of
appends (proved in general), but `treecode_is_prefix_of` is NOT equivalent
to sequence prefixing: one `LEFT` append produces `words[0] = 0b10`, while
sixty-four `LEFT` appends carry the marker into a second word leaving
`words[0] = 0`, and `treecode_word_is_prefix_of`'s `rhs == 0` early-out
answers false although the one-step path is a prefix of the sixty-four-step
path.  This contradicts the function's own documented purpose ("check if
lhs is a prefix of rhs"), so it is recorded as a code bug. -/
theorem treecode_prefix_of_bug :
    (∀ bs : List TreecodeLorR,
      (treecode_append_all treecode_init bs).code_length = bs.length) ∧
    treecode_append_all treecode_init [false] = ⟨1, [2]⟩ ∧
    treecode_append_all treecode_init (List.replicate 64 false) = ⟨64, [0, 1, 0, 0]⟩ ∧
    treecode_is_prefix_of (treecode_append_all treecode_init [false])
      (treecode_append_all treecode_init (List.replicate 64 false)) = false ∧
    [false] <+: List.replicate 64 false :=
  ⟨fun bs => (treecode_append_all_code_length bs treecode_init).trans (Nat.zero_add _),
   by decide, by decide, by decide,
   ⟨List.replicate 63 false, rfl⟩⟩

/-- C8: `ot_r32_less_than` does not agree with the exact comparison on all
positive-denominator rationals: at `lh = 2/1`, `rh = 5/2` the continued
fractions are `[2]` and `[2; 2]`; the shared leading quotient flips
`reversed`, the loop breaks with `r_l = 0`, `r_r = 1`, and the final line
`return (r_r != 0) != (reversed == 1)` tests the wrong side's remainder
(boost's reference `operator<` tests `ts.r`, the left one), answering
`false` although `2 < 5/2`.  Denominators are small, so no conversion or
overflow is involved. -/
theorem ot_r32_less_than_bug :
    ot_r32_less_than ⟨2, 1⟩ ⟨5, 2⟩ = false ∧ (2 : ℚ) / 1 < 5 / 2 := by
  constructor
  · decide
  · norm_num
